import Mathlib

/-!
PIUIO bridge firmware (main.c): a shallow embedding.

The firmware keeps five variables: `blink_interval_ms`, `inputData`, `lampData`
and the two function-local statics `start_ms` and `led_state` of
`led_blinking_task`; the receive queue of the vendor endpoint is carried next to
them.  Each entry point of `main.c` becomes a function on a
record of these variables.  Machine integers are naturals reduced modulo the
width of the C type at every store.
-/

namespace Piuio

/-! ## Constants and tables -/

/-- Switch pins, in the order DL, UL, C, UR, DR for each player, then test and service. -/
def pinSwitch : List Nat := [19, 21, 10, 6, 8, 17, 27, 2, 0, 4, 15, 14]

/-- Lamp pins, one per pad panel. -/
def pinLED : List Nat := [18, 20, 11, 7, 9, 16, 26, 3, 1, 5]

def BLINK_NOT_MOUNTED : Nat := 250
def BLINK_MOUNTED : Nat := 1000
def BLINK_SUSPENDED : Nat := 2500
def UINT32_MAX : Nat := 4294967295
def BLINK_ALWAYS_ON : Nat := UINT32_MAX
def BLINK_ALWAYS_OFF : Nat := 0

/-- Debounce press threshold of piuio_config.h, in milliseconds. -/
def DEBOUNCE_PRESS_TIME : Nat := 15

/-- Debounce release threshold of piuio_config.h, in milliseconds. -/
def DEBOUNCE_RELEASE_TIME : Nat := 15

/-- Modelled from the spec: the stage code `CONTROL_STAGE_SETUP` comes from the USB
stack header, which is not among the source files; the stack numbers the stages
idle 0, setup 1, data 2, ack 3. -/
def CONTROL_STAGE_SETUP : Nat := 1

/-- Modelled from the spec: the data stage code of the same header. -/
def CONTROL_STAGE_DATA : Nat := 2

/-- Modelled from the spec: the ack stage code of the same header. -/
def CONTROL_STAGE_ACK : Nat := 3

/-! ## Data model -/

/-- The setup packet `tusb_control_request_t`, one natural per field. -/
structure Request where
  bmRequestType : Nat
  bRequest : Nat
  wValue : Nat
  wIndex : Nat
  wLength : Nat

/-- Modelled from the spec: `bmRequestType_bit.type` is declared in the USB stack
header, which is not among the source files; it is the 2-bit type field of
`bmRequestType` (bits 5 and 6, above the 5-bit recipient and below the 1-bit
direction). -/
def bmRequestType_bit_type (request : Request) : Nat :=
  (request.bmRequestType / 32) % 4

/-- The variables of main.c.  `vendor_rx` is the receive queue of the vendor
endpoint, owned by the USB stack, which `piuio_task` drains. -/
structure State where
  blink_interval_ms : Nat
  inputData : Fin 8 → Nat
  lampData : Fin 8 → Nat
  start_ms : Nat
  led_state : Bool
  vendor_rx : List Nat

/-- The state after static initialisation: arrays zeroed, `blink_interval_ms`
set to `BLINK_NOT_MOUNTED`. -/
def boot : State :=
  { blink_interval_ms := BLINK_NOT_MOUNTED
    inputData := fun _ => 0
    lampData := fun _ => 0
    start_ms := 0
    led_state := false
    vendor_rx := [] }

/-! ## Device callbacks -/

def tud_mount_cb (s : State) : State :=
  { s with blink_interval_ms := BLINK_MOUNTED }

def tud_umount_cb (s : State) : State :=
  { s with blink_interval_ms := BLINK_NOT_MOUNTED }

def tud_suspend_cb (_remote_wakeup_en : Bool) (s : State) : State :=
  { s with blink_interval_ms := BLINK_SUSPENDED }

def tud_resume_cb (s : State) : State :=
  { s with blink_interval_ms := BLINK_MOUNTED }

/-! ## Vendor control transfer -/

/-- One call of `tud_control_xfer`: the port, the request, the bytes of the
buffer handed over and the length. -/
structure XferCall where
  rhport : Nat
  request : Request
  buffer : List Nat
  len : Nat

/-- What one call of the control callback yields: the variables afterwards, the
value returned (false stalls the endpoint) and the transfer started, if any. -/
structure CbOut where
  state : State
  ret : Bool
  xfer : Option XferCall

/-- The callback `tud_vendor_control_xfer_cb`.  `xfer_ret` is what
`tud_control_xfer` would return if called.  The `switch` on
`bmRequestType_bit.type` is the chain of equality tests below. -/
def tud_vendor_control_xfer_cb (xfer_ret : Bool) (s : State)
    (rhport stage : Nat) (request : Request) : CbOut :=
  if stage ≠ CONTROL_STAGE_SETUP then
    { state := s, ret := true, xfer := none }
  else if request.bRequest = 0xAE then
    if bmRequestType_bit_type request = 0x40 then
      { state := s, ret := true, xfer := none }
    else if bmRequestType_bit_type request = 0xC0 then
      { state := s, ret := xfer_ret,
        xfer := some { rhport := rhport, request := request,
                       buffer := List.ofFn s.inputData, len := 8 } }
    else
      { state := s, ret := false, xfer := none }
  else
    { state := s, ret := false, xfer := none }

/-! ## Switch scan -/

/-- Modelled from the spec: `TU_BIT` is defined in the USB stack header, which is
not among the source files; it is `1UL << n`, a 32-bit unsigned value. -/
def TU_BIT (n : Nat) : Nat := (1 <<< n) % 2 ^ 32

/-- Modelled from the spec: `tu_bit_set` is a helper of the USB stack header, which
is not among the source files; it returns `value | TU_BIT(pos)`. -/
def tu_bit_set (value pos : Nat) : Nat := value ||| TU_BIT pos

/-- Modelled from the spec: `tu_bit_clear` is a helper of the USB stack header,
which is not among the source files; it returns `value & ~TU_BIT(pos)`, the
complement taken in 32 bits. -/
def tu_bit_clear (value pos : Nat) : Nat := value &&& ((2 ^ 32 - 1) ^^^ TU_BIT pos)

/-- One line of `piuio_task`: read `pin`, then set or clear bit `bit` of
`inputData[byte]`; the result is stored in a `uint8_t`. -/
def scanLine (gpio_get : Nat → Bool) (pin : Nat) (byte : Fin 8) (bit : Nat)
    (data : Fin 8 → Nat) : Fin 8 → Nat :=
  let input := gpio_get pin
  if input then Function.update data byte (tu_bit_set (data byte) bit % 256)
  else Function.update data byte (tu_bit_clear (data byte) bit % 256)

/-- The scan `piuio_task`.  `gpio_get` gives the level of each pin at the moment
it is read; every pin is read once.  The trailing block reads up to 64 pending
bytes of the vendor endpoint into a local buffer that is never used. -/
def piuio_task (gpio_get : Nat → Bool) (s : State) : State :=
  let d := s.inputData
  -- P1
  let d := scanLine gpio_get pinSwitch[0] 0 3 d
  let d := scanLine gpio_get pinSwitch[1] 0 0 d
  let d := scanLine gpio_get pinSwitch[2] 0 2 d
  let d := scanLine gpio_get pinSwitch[3] 0 1 d
  let d := scanLine gpio_get pinSwitch[4] 0 4 d
  -- P2
  let d := scanLine gpio_get pinSwitch[5] 2 3 d
  let d := scanLine gpio_get pinSwitch[6] 2 0 d
  let d := scanLine gpio_get pinSwitch[7] 2 2 d
  let d := scanLine gpio_get pinSwitch[8] 2 1 d
  let d := scanLine gpio_get pinSwitch[9] 2 4 d
  -- Test/Service
  let d := scanLine gpio_get pinSwitch[10] 1 1 d
  let d := scanLine gpio_get pinSwitch[11] 1 2 d
  if s.vendor_rx.length ≠ 0 then
    { s with inputData := d, vendor_rx := s.vendor_rx.drop 64 }
  else
    { s with inputData := d }

/-! ## Blinking task -/

/-- The task `led_blinking_task`.  `board_millis` is the value the 32-bit
millisecond counter returns at this call.  The second component is the argument
of `board_led_write` when the call reaches it. -/
def led_blinking_task (board_millis : Nat) (s : State) : State × Option Bool :=
  if (board_millis + 2 ^ 32 - s.start_ms) % 2 ^ 32 < s.blink_interval_ms then
    (s, none)
  else
    ({ s with
        start_ms := (s.start_ms + s.blink_interval_ms) % 2 ^ 32
        led_state := decide ((1 : Int) - (if s.led_state then 1 else 0) ≠ 0) },
     some s.led_state)

/-! ## Runs of the firmware -/

/-- The four link callbacks the USB stack may invoke. -/
inductive LinkEvent where
  | mount
  | umount
  | suspend (remote_wakeup_en : Bool)
  | resume

/-- Everything that can happen to the variables: a link callback, a control
callback, a scan, a blink check, or the stack queueing bytes the host sent on
the vendor endpoint. -/
inductive Action where
  | link (e : LinkEvent)
  | control (xfer_ret : Bool) (rhport stage : Nat) (request : Request)
  | scan (gpio_get : Nat → Bool)
  | blink (board_millis : Nat)
  | vendorOut (bytes : List Nat)

def linkStep (s : State) : LinkEvent → State
  | .mount => tud_mount_cb s
  | .umount => tud_umount_cb s
  | .suspend en => tud_suspend_cb en s
  | .resume => tud_resume_cb s

def step (s : State) : Action → State
  | .link e => linkStep s e
  | .control xfer_ret rhport stage request =>
      (tud_vendor_control_xfer_cb xfer_ret s rhport stage request).state
  | .scan gpio_get => piuio_task gpio_get s
  | .blink board_millis => (led_blinking_task board_millis s).1
  | .vendorOut bytes => { s with vendor_rx := s.vendor_rx ++ bytes }

/-- The state after a finite sequence of actions. -/
def run (s : State) (acts : List Action) : State := acts.foldl step s

/-- The link event of an action, if it is one. -/
def linkOf : Action → Option LinkEvent
  | .link e => some e
  | _ => none

/-! ## The report layout as the specification words it -/

/-- The (byte, bit) position the report layout assigns to each switch, in the
order of `pinSwitch`: five player-1 panels, five player-2 panels, test, service. -/
def layout : List (Fin 8 × Nat) :=
  [(0, 3), (0, 0), (0, 2), (0, 1), (0, 4),
   (2, 3), (2, 0), (2, 2), (2, 1), (2, 4),
   (1, 1), (1, 2)]

def slot (i : Fin 12) : Fin 8 × Nat := layout.getD i.val (0, 0)

def switchPin (i : Fin 12) : Nat := pinSwitch.getD i.val 0

/-- The committed state of switch `i`: its bit of `inputData`. -/
def switchBit (i : Fin 12) (s : State) : Bool :=
  (s.inputData (slot i).1).testBit (slot i).2

/-- The blink period the link state calls for: 250 before any link event and
after an unmount, 1000 after a mount or a resume, 2500 after a suspend. -/
def expectedPeriod : Option LinkEvent → Nat
  | none => 250
  | some .umount => 250
  | some .mount => 1000
  | some .resume => 1000
  | some (.suspend _) => 2500

/-- Two report buffers agree on everything outside the twelve assigned bits:
bytes 3..7, bits 5..7 of bytes 0 and 2, and bits 0 and 3..7 of byte 1. -/
def spareBitsEq (a b : Fin 8 → Nat) : Prop :=
  (∀ i : Fin 8, 3 ≤ i.val → a i = b i) ∧
  (∀ k : Nat, 5 ≤ k → k ≤ 7 →
    (a 0).testBit k = (b 0).testBit k ∧ (a 2).testBit k = (b 2).testBit k) ∧
  (∀ k : Nat, k = 0 ∨ (3 ≤ k ∧ k ≤ 7) → (a 1).testBit k = (b 1).testBit k)

/-! ## Host write, scan traces and blink traces -/

/-- The setup packet of a host write of the Output Report `R`: vendor type,
host-to-device, request code 0xAE, length of `R`. -/
def outputRequest (R : List Nat) : Request :=
  { bmRequestType := 0x40, bRequest := 0xAE, wValue := 0, wIndex := 0, wLength := R.length }

/-- A host write of `R` taken through the setup, data and ack stages of the
control callback, followed by one scan.  The callback is handed the setup packet
only: the bytes of `R` never reach it. -/
def writeThenTick (xfer_ret : Bool) (R : List Nat) (gpio_get : Nat → Bool) : List Action :=
  [ .control xfer_ret 0 CONTROL_STAGE_SETUP (outputRequest R),
    .control xfer_ret 0 CONTROL_STAGE_DATA (outputRequest R),
    .control xfer_ret 0 CONTROL_STAGE_ACK (outputRequest R),
    .scan gpio_get ]

/-- The committed state of switch `i` after each of a series of scans, every scan
given as the device time at which it runs and the pin levels it reads. -/
def scanTrace (i : Fin 12) : State → List (Nat × (Nat → Bool)) → List (Nat × Bool)
  | _, [] => []
  | s, (t, g) :: rest =>
      (t, switchBit i (piuio_task g s)) :: scanTrace i (piuio_task g s) rest

/-- The times of a trace at which the value differs from the one before it. -/
def changeTimes : Bool → List (Nat × Bool) → List Nat
  | _, [] => []
  | prev, (t, b) :: rest =>
      if b = prev then changeTimes b rest else t :: changeTimes b rest

/-- Consecutive elements of the list are at least `w` apart. -/
def spacedBy (w : Nat) : List Nat → Bool
  | a :: b :: l => decide (a + w ≤ b) && spacedBy w (b :: l)
  | _ => true

/-- The times at which `led_blinking_task` reaches `board_led_write`, over `n`
calls made at times `t`, `t + d`, `t + 2 d`, ...; the counter `board_millis`
returns the time reduced to 32 bits. -/
def toggleTimesFrom (d : Nat) : Nat → State → Nat → List Nat
  | 0, _, _ => []
  | n + 1, s, t =>
      if (led_blinking_task (t % 2 ^ 32) s).2.isSome then
        t :: toggleTimesFrom d n (led_blinking_task (t % 2 ^ 32) s).1 (t + d)
      else
        toggleTimesFrom d n (led_blinking_task (t % 2 ^ 32) s).1 (t + d)

/-- The toggle times over `n` calls starting at time 0. -/
def toggleTimes (d n : Nat) (s : State) : List Nat := toggleTimesFrom d n s 0

/-- Consecutive elements of the list are exactly `w` apart. -/
def exactlyApart (w : Nat) : List Nat → Bool
  | a :: b :: l => decide (b = a + w) && exactlyApart w (b :: l)
  | _ => true

/-- The invariant of the blink schedule before the call made at time `t`, for an
interval `I` and an increment `d` dividing it: `start_ms` holds, reduced to 32
bits, a multiple `S` of `I` with `S ≤ t ≤ S + I`, and `S < t` once time has
moved. -/
structure BlinkInv (I d t : Nat) (s : State) (S : Nat) : Prop where
  hd : 0 < d
  hdiv : d ∣ I
  hpos : 0 < I
  hlt : I < 2 ^ 32
  hblink : s.blink_interval_ms = I
  hstart : s.start_ms = S % 2 ^ 32
  hS : I ∣ S
  ht : d ∣ t
  hle : S ≤ t
  hge : t ≤ S + I
  hmoved : t = 0 ∨ S < t

/-- The list is `x`, `x + w`, `x + 2 w`, ... -/
def periodicFrom (w : Nat) : Nat → List Nat → Prop
  | _, [] => True
  | x, a :: l => a = x ∧ periodicFrom w (x + w) l

/-! ## Bit-level facts -/

theorem testBit_TU_BIT (k j : Nat) (hk : k < 32) :
    (TU_BIT k).testBit j = decide (k = j) := by
  unfold TU_BIT
  rw [Nat.one_shiftLeft, Nat.testBit_mod_two_pow, Nat.testBit_two_pow]
  by_cases h : k = j
  · subst h; simp [hk]
  · simp [h]

theorem testBit_tu_bit_set (v k j : Nat) (hk : k < 32) :
    (tu_bit_set v k % 256).testBit j = (decide (j < 8) && (v.testBit j || decide (k = j))) := by
  have h256 : (256 : Nat) = 2 ^ 8 := by norm_num
  unfold tu_bit_set
  rw [h256, Nat.testBit_mod_two_pow, Nat.testBit_or, testBit_TU_BIT k j hk]

theorem testBit_tu_bit_clear (v k j : Nat) (hk : k < 32) :
    (tu_bit_clear v k % 256).testBit j
      = (decide (j < 8) && (v.testBit j && !decide (k = j))) := by
  have h256 : (256 : Nat) = 2 ^ 8 := by norm_num
  unfold tu_bit_clear
  rw [h256, Nat.testBit_mod_two_pow, Nat.testBit_and, Nat.testBit_xor,
    Nat.testBit_two_pow_sub_one, testBit_TU_BIT k j hk]
  by_cases hj : j < 8
  · have : j < 32 := by omega
    simp [hj, this]
  · simp [hj]

theorem scanLine_other (g : Nat → Bool) (pin : Nat) (b b' : Fin 8) (k : Nat)
    (d : Fin 8 → Nat) (h : b' ≠ b) : scanLine g pin b k d b' = d b' := by
  unfold scanLine
  by_cases hg : g pin <;> simp [hg, Function.update_noteq h]

theorem scanLine_bit (g : Nat → Bool) (pin : Nat) (b : Fin 8) (k j : Nat)
    (d : Fin 8 → Nat) (hk : k < 32) (hj : j < 8) :
    (scanLine g pin b k d b).testBit j = if k = j then g pin else (d b).testBit j := by
  unfold scanLine
  by_cases hg : g pin
  · simp only [hg, if_true, Function.update_same]
    rw [testBit_tu_bit_set _ k j hk]
    by_cases h : k = j <;> simp [h, hj]
  · simp only [hg, Bool.false_eq_true, if_false, Function.update_same]
    rw [testBit_tu_bit_clear _ k j hk]
    by_cases h : k = j <;> simp [h, hj]

/-- The report buffer after one scan, as the twelve lines applied in source order. -/
theorem piuio_task_inputData (g : Nat → Bool) (s : State) :
    (piuio_task g s).inputData =
      scanLine g 14 1 2 (scanLine g 15 1 1
        (scanLine g 4 2 4 (scanLine g 0 2 1 (scanLine g 2 2 2 (scanLine g 27 2 0
          (scanLine g 17 2 3
            (scanLine g 8 0 4 (scanLine g 6 0 1 (scanLine g 10 0 2 (scanLine g 21 0 0
              (scanLine g 19 0 3 s.inputData))))))))))) := by
  unfold piuio_task
  split <;> rfl

theorem piuio_task_lampData (g : Nat → Bool) (s : State) :
    (piuio_task g s).lampData = s.lampData := by
  unfold piuio_task
  split <;> rfl

theorem piuio_task_blink (g : Nat → Bool) (s : State) :
    (piuio_task g s).blink_interval_ms = s.blink_interval_ms := by
  unfold piuio_task
  split <;> rfl

/-- After a scan the bit of every switch is the level just read from its pin. -/
theorem switchBit_piuio_task (g : Nat → Bool) (s : State) (i : Fin 12) :
    switchBit i (piuio_task g s) = g (switchPin i) := by
  unfold switchBit
  rw [piuio_task_inputData]
  fin_cases i <;>
    simp [-Nat.testBit_zero, slot, layout, switchPin, pinSwitch, scanLine_bit, scanLine_other]

theorem type_field_lt (request : Request) : bmRequestType_bit_type request < 4 := by
  unfold bmRequestType_bit_type
  exact Nat.mod_lt _ (by norm_num)

/-- At the setup stage the callback stalls, whatever the request: the 2-bit type
field equals neither 0x40 nor 0xC0. -/
theorem setup_stage_stalls (xfer_ret : Bool) (s : State) (rhport : Nat) (request : Request) :
    tud_vendor_control_xfer_cb xfer_ret s rhport CONTROL_STAGE_SETUP request
      = { state := s, ret := false, xfer := none } := by
  have h := type_field_lt request
  have h1 : bmRequestType_bit_type request ≠ 0x40 := by omega
  have h2 : bmRequestType_bit_type request ≠ 0xC0 := by omega
  unfold tud_vendor_control_xfer_cb
  simp [h1, h2]

theorem control_cb_state (xfer_ret : Bool) (s : State) (rhport stage : Nat)
    (request : Request) :
    (tud_vendor_control_xfer_cb xfer_ret s rhport stage request).state = s := by
  unfold tud_vendor_control_xfer_cb
  split
  · rfl
  · split
    · split
      · rfl
      · split <;> rfl
    · rfl

theorem led_blinking_task_frame (t : Nat) (s : State) :
    (led_blinking_task t s).1.blink_interval_ms = s.blink_interval_ms
      ∧ (led_blinking_task t s).1.inputData = s.inputData
      ∧ (led_blinking_task t s).1.lampData = s.lampData := by
  unfold led_blinking_task
  split <;> exact ⟨rfl, rfl, rfl⟩

theorem spareBitsEq_refl (a : Fin 8 → Nat) : spareBitsEq a a :=
  ⟨fun _ _ => rfl, fun _ _ _ => ⟨rfl, rfl⟩, fun _ _ => rfl⟩

theorem spareBitsEq_trans {a b c : Fin 8 → Nat} (h1 : spareBitsEq a b)
    (h2 : spareBitsEq b c) : spareBitsEq a c := by
  obtain ⟨p1, q1, r1⟩ := h1
  obtain ⟨p2, q2, r2⟩ := h2
  refine ⟨fun i hi => (p1 i hi).trans (p2 i hi), fun k h5 h7 => ?_, fun k hk => ?_⟩
  · exact ⟨(q1 k h5 h7).1.trans (q2 k h5 h7).1, (q1 k h5 h7).2.trans (q2 k h5 h7).2⟩
  · exact (r1 k hk).trans (r2 k hk)

theorem piuio_task_spare (g : Nat → Bool) (s : State) :
    spareBitsEq (piuio_task g s).inputData s.inputData := by
  rw [piuio_task_inputData]
  refine ⟨fun i hi => ?_, fun k h5 h7 => ?_, fun k hk => ?_⟩
  · have h0 : i ≠ 0 := by intro h; subst h; simp at hi
    have h1 : i ≠ 1 := by intro h; subst h; simp at hi
    have h2 : i ≠ 2 := by intro h; subst h; simp at hi
    simp [scanLine_other, h0, h1, h2]
  · have hk8 : k < 8 := by omega
    have n0 : ¬ 0 = k := by omega
    have n1 : ¬ 1 = k := by omega
    have n2 : ¬ 2 = k := by omega
    have n3 : ¬ 3 = k := by omega
    have n4 : ¬ 4 = k := by omega
    simp [-Nat.testBit_zero, scanLine_bit, scanLine_other, hk8, n0, n1, n2, n3, n4]
  · have hk8 : k < 8 := by omega
    have n1 : ¬ 1 = k := by omega
    have n2 : ¬ 2 = k := by omega
    simp [-Nat.testBit_zero, scanLine_bit, scanLine_other, hk8, n1, n2]

/-- A step leaves the blink period alone unless it is a link callback. -/
theorem step_blink (s : State) (a : Action) (h : linkOf a = none) :
    (step s a).blink_interval_ms = s.blink_interval_ms := by
  cases a with
  | link e => simp [linkOf] at h
  | control x r st rq => simp [step, control_cb_state]
  | scan g => simp [step, piuio_task_blink]
  | blink t => simp [step, (led_blinking_task_frame t s).1]
  | vendorOut b => rfl

theorem linkStep_blink (s : State) (e : LinkEvent) :
    (linkStep s e).blink_interval_ms = expectedPeriod (some e) := by
  cases e <;> rfl

/-- Every step keeps the spare bits of the report and the whole lamp buffer. -/
theorem step_frame (s : State) (a : Action) :
    spareBitsEq (step s a).inputData s.inputData ∧ (step s a).lampData = s.lampData := by
  cases a with
  | link e => cases e <;> exact ⟨spareBitsEq_refl _, rfl⟩
  | control x r st rq =>
      show spareBitsEq (tud_vendor_control_xfer_cb x s r st rq).state.inputData _
        ∧ (tud_vendor_control_xfer_cb x s r st rq).state.lampData = _
      rw [control_cb_state]
      exact ⟨spareBitsEq_refl _, rfl⟩
  | scan g => exact ⟨piuio_task_spare g s, piuio_task_lampData g s⟩
  | blink t =>
      show spareBitsEq (led_blinking_task t s).1.inputData _
        ∧ (led_blinking_task t s).1.lampData = _
      rw [(led_blinking_task_frame t s).2.1, (led_blinking_task_frame t s).2.2]
      exact ⟨spareBitsEq_refl _, rfl⟩
  | vendorOut b => exact ⟨spareBitsEq_refl _, rfl⟩

theorem run_frame (s : State) (acts : List Action) :
    spareBitsEq (run s acts).inputData s.inputData ∧ (run s acts).lampData = s.lampData := by
  induction acts generalizing s with
  | nil => exact ⟨spareBitsEq_refl _, rfl⟩
  | cons a as ih =>
      have h1 := step_frame s a
      have h2 := ih (step s a)
      exact ⟨spareBitsEq_trans h2.1 h1.1, h2.2.trans h1.2⟩

theorem run_append (s : State) (as bs : List Action) :
    run s (as ++ bs) = run (run s as) bs := by
  simp [run, List.foldl_append]

theorem run_blink (s : State) (acts : List Action) :
    (run s acts).blink_interval_ms =
      match (acts.filterMap linkOf).getLast? with
      | none => s.blink_interval_ms
      | some e => expectedPeriod (some e) := by
  induction acts using List.reverseRecOn with
  | nil => rfl
  | append_singleton as a ih =>
      rw [run_append]
      cases hl : linkOf a with
      | none =>
          have : (run (run s as) [a]) = step (run s as) a := rfl
          rw [this, step_blink _ a hl, ih]
          simp [List.filterMap_append, hl]
      | some e =>
          cases a with
          | link e2 =>
              simp only [linkOf, Option.some.injEq] at hl
              subst hl
              have : (run (run s as) [Action.link e2]) = linkStep (run s as) e2 := rfl
              rw [this, linkStep_blink]
              simp [List.filterMap_append, linkOf]
          | control x r st rq => simp [linkOf] at hl
          | scan g => simp [linkOf] at hl
          | blink t => simp [linkOf] at hl
          | vendorOut b => simp [linkOf] at hl

/-! ## The blink schedule -/

theorem sub_mod_u32 (t S : Nat) (h1 : S ≤ t) (h2 : t - S < 2 ^ 32) :
    (t % 2 ^ 32 + 2 ^ 32 - S % 2 ^ 32) % 2 ^ 32 = t - S := by
  have e : (2 : Nat) ^ 32 = 4294967296 := by norm_num
  rw [e] at h2 ⊢
  omega

theorem add_mod_u32 (S I : Nat) : (S % 2 ^ 32 + I) % 2 ^ 32 = (S + I) % 2 ^ 32 := by
  have e : (2 : Nat) ^ 32 = 4294967296 := by norm_num
  rw [e]
  omega

/-- Under the invariant the call toggles exactly when the time is a positive
multiple of the interval. -/
theorem BlinkInv.due_iff {I d t S : Nat} {s : State} (inv : BlinkInv I d t s S) :
    t = S + I ↔ (0 < t ∧ I ∣ t) := by
  constructor
  · intro h
    subst h
    exact ⟨by have := inv.hpos; omega, Dvd.dvd.add inv.hS (dvd_refl I)⟩
  · rintro ⟨h0, hdvd⟩
    have hlt : S < t := by
      rcases inv.hmoved with h | h
      · omega
      · exact h
    have h1 : I ∣ t - S := Nat.dvd_sub' hdvd inv.hS
    have h2 : I ≤ t - S := Nat.le_of_dvd (by omega) h1
    have := inv.hge
    omega

theorem BlinkInv.elapsed {I d t S : Nat} {s : State} (inv : BlinkInv I d t s S) :
    (t % 2 ^ 32 + 2 ^ 32 - s.start_ms) % 2 ^ 32 = t - S := by
  rw [inv.hstart]
  apply sub_mod_u32 t S inv.hle
  have := inv.hge
  have := inv.hlt
  omega

/-- A call before the deadline does nothing, and the invariant holds at the next
call. -/
theorem BlinkInv.wait {I d t S : Nat} {s : State} (inv : BlinkInv I d t s S)
    (h : t ≠ S + I) :
    led_blinking_task (t % 2 ^ 32) s = (s, none) ∧ BlinkInv I d (t + d) s S := by
  have hge := inv.hge
  have hle := inv.hle
  have hpos := inv.hpos
  have hlt : t < S + I := by omega
  constructor
  · unfold led_blinking_task
    rw [inv.elapsed, inv.hblink, if_pos (by omega)]
  · have hdS : d ∣ S := dvd_trans inv.hdiv inv.hS
    have h1 : d ∣ S + I - t := Nat.dvd_sub' (Dvd.dvd.add hdS inv.hdiv) inv.ht
    have h2 : d ≤ S + I - t := Nat.le_of_dvd (by omega) h1
    exact { inv with
      ht := Dvd.dvd.add inv.ht (dvd_refl d)
      hle := by have := inv.hle; omega
      hge := by omega
      hmoved := Or.inr (by have := inv.hle; have := inv.hd; omega) }

/-- A call at the deadline reaches `board_led_write` and moves `start_ms` one
interval on; the invariant holds at the next call. -/
theorem BlinkInv.fire {I d t S : Nat} {s : State} (inv : BlinkInv I d t s S)
    (h : t = S + I) :
    (led_blinking_task (t % 2 ^ 32) s).2.isSome = true
      ∧ BlinkInv I d (t + d) (led_blinking_task (t % 2 ^ 32) s).1 (S + I) := by
  have hcond : ¬ (t % 2 ^ 32 + 2 ^ 32 - s.start_ms) % 2 ^ 32 < s.blink_interval_ms := by
    rw [inv.elapsed, inv.hblink]
    omega
  have hdI : d ≤ I := Nat.le_of_dvd inv.hpos inv.hdiv
  have hd := inv.hd
  unfold led_blinking_task
  rw [if_neg hcond]
  refine ⟨rfl, ?_⟩
  exact
    { hd := inv.hd
      hdiv := inv.hdiv
      hpos := inv.hpos
      hlt := inv.hlt
      hblink := inv.hblink
      hstart := by
        show (s.start_ms + s.blink_interval_ms) % 2 ^ 32 = (S + I) % 2 ^ 32
        rw [inv.hstart, inv.hblink, add_mod_u32]
      hS := Dvd.dvd.add inv.hS (dvd_refl I)
      ht := Dvd.dvd.add inv.ht (dvd_refl d)
      hle := by omega
      hge := by omega
      hmoved := Or.inr (by omega) }

theorem exactlyApart_of_periodicFrom (w x : Nat) (l : List Nat)
    (h : periodicFrom w x l) : exactlyApart w l = true := by
  induction l generalizing x with
  | nil => rfl
  | cons a l ih =>
      cases l with
      | nil => rfl
      | cons b l2 =>
          obtain ⟨ha, hb, hrest⟩ := h
          have := ih (x + w) ⟨hb, hrest⟩
          subst ha
          subst hb
          simp [exactlyApart, this]

theorem toggleTimesFrom_periodic {I d : Nat} (n : Nat) :
    ∀ (t S : Nat) (s : State), BlinkInv I d t s S →
      periodicFrom I (S + I) (toggleTimesFrom d n s t) := by
  induction n with
  | zero => intro t S s _; trivial
  | succ n ih =>
      intro t S s inv
      by_cases h : t = S + I
      · obtain ⟨h1, h2⟩ := inv.fire h
        unfold toggleTimesFrom
        rw [if_pos h1]
        exact ⟨h, ih _ _ _ h2⟩
      · obtain ⟨h1, h2⟩ := inv.wait h
        unfold toggleTimesFrom
        rw [h1]
        simp only [Option.isSome_none, Bool.false_eq_true, if_false]
        exact ih _ _ _ h2

theorem toggleTimesFrom_eq_filter {I d : Nat} (n : Nat) :
    ∀ (k S : Nat) (s : State), BlinkInv I d (k * d) s S →
      toggleTimesFrom d n s (k * d)
        = ((List.range' k n).map (fun j => j * d)).filter (fun t => decide (0 < t ∧ I ∣ t)) := by
  induction n with
  | zero => intro k S s _; rfl
  | succ n ih =>
      intro k S s inv
      have hnext : k * d + d = (k + 1) * d := by ring
      rw [List.range'_succ, List.map_cons]
      by_cases h : k * d = S + I
      · obtain ⟨h1, h2⟩ := inv.fire h
        rw [hnext] at h2
        unfold toggleTimesFrom
        rw [if_pos h1, hnext, ih _ _ _ h2,
          List.filter_cons_of_pos (by simpa using inv.due_iff.mp h)]
      · obtain ⟨h1, h2⟩ := inv.wait h
        rw [hnext] at h2
        unfold toggleTimesFrom
        rw [h1]
        simp only [Option.isSome_none, Bool.false_eq_true, if_false]
        rw [hnext, ih _ _ _ h2,
          List.filter_cons_of_neg (by simpa using fun h0 hd => h (inv.due_iff.mpr ⟨h0, hd⟩))]

theorem BlinkInv.init {I d : Nat} {s : State} (hd : 0 < d) (hdiv : d ∣ I) (hpos : 0 < I)
    (hlt : I < 2 ^ 32) (hs : s.blink_interval_ms = I) (h0 : s.start_ms = 0) :
    BlinkInv I d 0 s 0 :=
  { hd := hd, hdiv := hdiv, hpos := hpos, hlt := hlt, hblink := hs
    hstart := by rw [h0]; rfl
    hS := dvd_zero I
    ht := dvd_zero d
    hle := le_refl 0
    hge := by omega
    hmoved := Or.inl rfl }

/-! ## Claims -/

/-- C1 (serve-input), evaluated on the code: a setup-stage request with code 0xAE
and bmRequestType 0xC0 is stalled and no transfer is started, because the 2-bit
type field of 0xC0 is 2, which the callback compares with 0xC0. -/
theorem serve_input_is_stalled (xfer_ret : Bool) (s : State)
    (rhport wValue wIndex wLength : Nat) :
    bmRequestType_bit_type
        { bmRequestType := 0xC0, bRequest := 0xAE, wValue := wValue, wIndex := wIndex,
          wLength := wLength } = 2
      ∧ (tud_vendor_control_xfer_cb xfer_ret s rhport CONTROL_STAGE_SETUP
          { bmRequestType := 0xC0, bRequest := 0xAE, wValue := wValue, wIndex := wIndex,
            wLength := wLength }).ret = false
      ∧ (tud_vendor_control_xfer_cb xfer_ret s rhport CONTROL_STAGE_SETUP
          { bmRequestType := 0xC0, bRequest := 0xAE, wValue := wValue, wIndex := wIndex,
            wLength := wLength }).xfer.isNone = true := by
  refine ⟨by simp [bmRequestType_bit_type], ?_, ?_⟩ <;> simp [setup_stage_stalls]

/-- C2 (stall on unsupported requests): at the setup stage, a request whose code
is not 0xAE, or whose code is 0xAE but whose bmRequestType is neither the host
read 0xC0 nor the host write 0x40, makes the callback return false, start no
transfer and leave every variable as it was, whatever the current state. -/
theorem stall_unsupported (xfer_ret : Bool) (s : State) (rhport : Nat) (request : Request)
    (h : request.bRequest ≠ 0xAE ∨
      (request.bRequest = 0xAE ∧ request.bmRequestType ≠ 0xC0 ∧ request.bmRequestType ≠ 0x40)) :
    (tud_vendor_control_xfer_cb xfer_ret s rhport CONTROL_STAGE_SETUP request).ret = false
      ∧ (tud_vendor_control_xfer_cb xfer_ret s rhport CONTROL_STAGE_SETUP request).xfer.isNone
          = true
      ∧ (tud_vendor_control_xfer_cb xfer_ret s rhport CONTROL_STAGE_SETUP request).state = s := by
  rcases h with h | ⟨h, _, _⟩
  · unfold tud_vendor_control_xfer_cb
    simp [h]
  · rw [setup_stage_stalls]
    exact ⟨rfl, rfl, rfl⟩

/-- Witness for C2: request code 0xAE with the standard-read type 0x80, at the
setup stage from boot. -/
theorem stall_unsupported_witness :
    ((0xAE : Nat) ≠ 0xAE ∨ ((0xAE : Nat) = 0xAE ∧ (0x80 : Nat) ≠ 0xC0 ∧ (0x80 : Nat) ≠ 0x40))
      ∧ (tud_vendor_control_xfer_cb true boot 0 CONTROL_STAGE_SETUP
          { bmRequestType := 0x80, bRequest := 0xAE, wValue := 0, wIndex := 0,
            wLength := 8 }).ret = false :=
  ⟨Or.inr ⟨rfl, by decide, by decide⟩,
   (stall_unsupported true boot 0
      { bmRequestType := 0x80, bRequest := 0xAE, wValue := 0, wIndex := 0, wLength := 8 }
      (Or.inr ⟨rfl, by decide, by decide⟩)).1⟩

/-- C3 (Input Report layout): after one call of `piuio_task`, whatever the pin
levels and the prior content of `inputData`, the bit at the position the layout
assigns to switch `i` equals the level read from `pinSwitch[i]`; the twelve
assigned positions are pairwise distinct. -/
theorem input_report_layout (g : Nat → Bool) (s : State) (i : Fin 12) :
    switchBit i (piuio_task g s) = g (switchPin i)
      ∧ layout.length = 12 ∧ layout.Nodup :=
  ⟨switchBit_piuio_task g s i, rfl, by decide⟩

/-- C4 (accept-output), evaluated on the code: a setup-stage request with code
0xAE and bmRequestType 0x40 is stalled, not acknowledged, because the 2-bit type
field of 0x40 is 2, which the callback compares with 0x40. -/
theorem accept_output_is_stalled (xfer_ret : Bool) (s : State)
    (rhport wValue wIndex wLength : Nat) :
    bmRequestType_bit_type
        { bmRequestType := 0x40, bRequest := 0xAE, wValue := wValue, wIndex := wIndex,
          wLength := wLength } = 2
      ∧ (tud_vendor_control_xfer_cb xfer_ret s rhport CONTROL_STAGE_SETUP
          { bmRequestType := 0x40, bRequest := 0xAE, wValue := wValue, wIndex := wIndex,
            wLength := wLength }).ret = false := by
  refine ⟨by simp [bmRequestType_bit_type], ?_⟩
  simp [setup_stage_stalls]

/-- C8 (data and ack stages are successful no-ops): at any stage other than the
setup stage, for any request, the callback returns true, starts no transfer and
leaves `inputData`, `lampData`, `blink_interval_ms` and every other variable
unchanged. -/
theorem non_setup_stage_noop (xfer_ret : Bool) (s : State) (rhport stage : Nat)
    (request : Request) (h : stage ≠ CONTROL_STAGE_SETUP) :
    (tud_vendor_control_xfer_cb xfer_ret s rhport stage request).ret = true
      ∧ (tud_vendor_control_xfer_cb xfer_ret s rhport stage request).xfer.isNone = true
      ∧ (tud_vendor_control_xfer_cb xfer_ret s rhport stage request).state = s
      ∧ (tud_vendor_control_xfer_cb xfer_ret s rhport stage request).state.inputData
          = s.inputData
      ∧ (tud_vendor_control_xfer_cb xfer_ret s rhport stage request).state.lampData
          = s.lampData
      ∧ (tud_vendor_control_xfer_cb xfer_ret s rhport stage request).state.blink_interval_ms
          = s.blink_interval_ms := by
  unfold tud_vendor_control_xfer_cb
  simp [h]

/-- Witness for C8: the data stage of a host read of 8 bytes, from boot. -/
theorem non_setup_stage_noop_witness :
    CONTROL_STAGE_DATA ≠ CONTROL_STAGE_SETUP
      ∧ (tud_vendor_control_xfer_cb false boot 0 CONTROL_STAGE_DATA
          { bmRequestType := 0xC0, bRequest := 0xAE, wValue := 0, wIndex := 0,
            wLength := 8 }).ret = true :=
  ⟨by decide,
   (non_setup_stage_noop false boot 0 CONTROL_STAGE_DATA
      { bmRequestType := 0xC0, bRequest := 0xAE, wValue := 0, wIndex := 0, wLength := 8 }
      (by decide)).1⟩

/-- C9 (link state selects the blink period): after any finite sequence of
actions from boot, `blink_interval_ms` is the period of the last link event
(250 if there was none or it was an unmount, 1000 after a mount or resume, 2500
after a suspend); it is never any other value, in particular neither
`BLINK_ALWAYS_ON` nor `BLINK_ALWAYS_OFF`; and neither `piuio_task` nor the
control callback changes it. -/
theorem link_state_selects_blink (acts : List Action) (g : Nat → Bool) (s : State)
    (xfer_ret : Bool) (rhport stage : Nat) (request : Request) :
    (run boot acts).blink_interval_ms = expectedPeriod (acts.filterMap linkOf).getLast?
      ∧ ((run boot acts).blink_interval_ms = BLINK_NOT_MOUNTED
          ∨ (run boot acts).blink_interval_ms = BLINK_MOUNTED
          ∨ (run boot acts).blink_interval_ms = BLINK_SUSPENDED)
      ∧ (run boot acts).blink_interval_ms ≠ BLINK_ALWAYS_ON
      ∧ (run boot acts).blink_interval_ms ≠ BLINK_ALWAYS_OFF
      ∧ (piuio_task g s).blink_interval_ms = s.blink_interval_ms
      ∧ (tud_vendor_control_xfer_cb xfer_ret s rhport stage request).state.blink_interval_ms
          = s.blink_interval_ms := by
  have key : (run boot acts).blink_interval_ms
      = expectedPeriod (acts.filterMap linkOf).getLast? := by
    rw [run_blink]
    cases (acts.filterMap linkOf).getLast? <;> rfl
  refine ⟨key, ?_, ?_, ?_, piuio_task_blink g s, by rw [control_cb_state]⟩
  all_goals
    rw [key]
    rcases (acts.filterMap linkOf).getLast? with _ | e
    · simp [expectedPeriod, BLINK_NOT_MOUNTED, BLINK_MOUNTED, BLINK_SUSPENDED,
        BLINK_ALWAYS_ON, BLINK_ALWAYS_OFF, UINT32_MAX]
    · cases e <;>
        simp [expectedPeriod, BLINK_NOT_MOUNTED, BLINK_MOUNTED, BLINK_SUSPENDED,
          BLINK_ALWAYS_ON, BLINK_ALWAYS_OFF, UINT32_MAX]

/-- C10 (scan frame): one call of `piuio_task` leaves bytes 3..7 of `inputData`,
bits 5..7 of bytes 0 and 2, bits 0 and 3..7 of byte 1 and the whole of `lampData`
as they were; so after any sequence of actions from boot those bits are 0 and
`lampData` is all zero. -/
theorem scan_frame (g : Nat → Bool) (s : State) (acts : List Action) :
    spareBitsEq (piuio_task g s).inputData s.inputData
      ∧ (piuio_task g s).lampData = s.lampData
      ∧ spareBitsEq (run boot acts).inputData (fun _ => 0)
      ∧ (run boot acts).lampData = (fun _ => 0) :=
  ⟨piuio_task_spare g s, piuio_task_lampData g s, run_frame boot acts⟩

/-- Counterexample to C5: from boot, a host write of eight 0xFF bytes taken
through all three stages and followed by a scan leaves `lampData` all zero,
not equal to the report. -/
theorem lamp_round_trip_fails :
    List.ofFn (run boot (writeThenTick true (List.replicate 8 255) (fun _ => true))).lampData
        = List.replicate 8 0
      ∧ List.ofFn
          (run boot (writeThenTick true (List.replicate 8 255) (fun _ => true))).lampData
        ≠ List.replicate 8 255 := by
  rw [(run_frame boot _).2]
  decide

/-- C5 as amended: a host write of any report `R`, taken through the setup, data
and ack stages and followed by a scan, leaves `lampData` exactly as it was; from
boot `lampData` is all zero afterwards, whatever `R` is. -/
theorem lamp_buffer_untouched (xfer_ret : Bool) (R : List Nat) (g : Nat → Bool) (s : State) :
    (run s (writeThenTick xfer_ret R g)).lampData = s.lampData
      ∧ ∀ i : Fin 8, (run boot (writeThenTick xfer_ret R g)).lampData i = 0 := by
  refine ⟨(run_frame s _).2, fun i => ?_⟩
  rw [(run_frame boot _).2]
  rfl

/-- Counterexample to C6: switch 0 (pin 19) read high at 0 ms, low at 1 ms and
high at 2 ms changes its committed bit at each of the three scans, so two
changes lie 1 ms apart, well inside the 15 ms threshold. -/
theorem debounce_fails :
    changeTimes (switchBit 0 boot)
        (scanTrace 0 boot
          [(0, fun pin => decide (pin = 19)), (1, fun _ => false),
           (2, fun pin => decide (pin = 19))]) = [0, 1, 2]
      ∧ spacedBy DEBOUNCE_PRESS_TIME
          (changeTimes (switchBit 0 boot)
            (scanTrace 0 boot
              [(0, fun pin => decide (pin = 19)), (1, fun _ => false),
               (2, fun pin => decide (pin = 19))])) = false := by
  decide

/-- C6 as amended: the scan has no hold time; after every scan the committed bit
of each switch is the raw level read in that scan, whatever the device times and
the earlier readings. -/
theorem committed_follows_raw (i : Fin 12) (s : State) (samples : List (Nat × (Nat → Bool))) :
    scanTrace i s samples = samples.map (fun p => (p.1, p.2 (switchPin i))) := by
  induction samples generalizing s with
  | nil => rfl
  | cons p rest ih =>
      obtain ⟨t, g⟩ := p
      simp [scanTrace, switchBit_piuio_task, ih]

/-- Counterexample to C7: unmounted (interval 250) with the clock advancing 100 ms
between calls, the LED toggles at 300, 500 and 800 ms, which are 200 and 300 ms
apart, not 250. -/
theorem blink_period_fails :
    boot.blink_interval_ms = 250 ∧ boot.start_ms = 0
      ∧ toggleTimes 100 9 boot = [300, 500, 800]
      ∧ exactlyApart 250 (toggleTimes 100 9 boot) = false := by
  decide

/-- C7 as amended: with `blink_interval_ms` held at 250, 1000 or 2500, `start_ms`
initially 0 and the clock starting at 0 and advancing between calls by a positive
increment that divides the interval, the LED toggles exactly at the call times
that are positive multiples of the interval, so consecutive toggles are exactly
`blink_interval_ms` apart. -/
theorem blink_period_exact (I d n : Nat) (s : State)
    (hI : I = BLINK_NOT_MOUNTED ∨ I = BLINK_MOUNTED ∨ I = BLINK_SUSPENDED)
    (hs : s.blink_interval_ms = I) (h0 : s.start_ms = 0) (hd : 0 < d) (hdiv : d ∣ I) :
    toggleTimes d n s
        = ((List.range n).map (fun j => j * d)).filter (fun t => decide (0 < t ∧ I ∣ t))
      ∧ exactlyApart I (toggleTimes d n s) = true := by
  have hpos : 0 < I := by
    rcases hI with h | h | h <;> rw [h] <;> decide
  have hlt : I < 2 ^ 32 := by
    rcases hI with h | h | h <;> rw [h] <;> decide
  have inv : BlinkInv I d 0 s 0 := BlinkInv.init hd hdiv hpos hlt hs h0
  constructor
  · have inv0 : BlinkInv I d (0 * d) s 0 := by rw [Nat.zero_mul]; exact inv
    have := toggleTimesFrom_eq_filter n 0 0 s inv0
    rw [Nat.zero_mul] at this
    rw [List.range_eq_range']
    exact this
  · exact exactlyApart_of_periodicFrom I (0 + I) _ (toggleTimesFrom_periodic n 0 0 s inv)

/-- Witness for C7 as amended: unmounted, 50 ms increments, 12 calls from boot;
the toggles fall at 250 and 500 ms. -/
theorem blink_period_exact_witness :
    (0 < 50 ∧ 50 ∣ 250)
      ∧ toggleTimes 50 12 boot = [250, 500]
      ∧ exactlyApart 250 (toggleTimes 50 12 boot) = true :=
  ⟨by decide,
   by decide,
   (blink_period_exact 250 50 12 boot (Or.inl rfl) rfl rfl (by decide) (by decide)).2⟩

end Piuio
